import Mathlib

/-!
Shallow embedding of the `ramws` synchronization core (src/syncer.rs,
src/util.rs, src/config.rs, src/status.rs, src/main.rs) and proofs about
the frozen claims.  External effects (running the `rsync` process, the
terminal prompt, filesystem queries) are modelled as explicit oracle
arguments; each effectful function returns the list of effect events it
performs together with its result value, mirroring the Rust control flow.
-/

namespace Ramws

/-- Decidable "the first list begins with the second list" check used to
model Rust's `str::starts_with`. -/
def listStartsWith : List Char → List Char → Bool
  | _, [] => true
  | [], _ :: _ => false
  | c :: cs, p :: ps => c == p && listStartsWith cs ps

/-- Model of Rust `str::starts_with` on strings. -/
def strStartsWith (s pat : String) : Bool :=
  listStartsWith s.data pat.data

/-- Model of Rust `str::ends_with` on strings. -/
def strEndsWith (s pat : String) : Bool :=
  listStartsWith s.data.reverse pat.data.reverse

/-- Mirror direction (src/syncer.rs `SyncDirection`). -/
inductive SyncDirection where
  | origToWorkspace
  | workspaceToOrig
deriving DecidableEq

/-- Options passed to a mirror invocation (src/syncer.rs `SyncOptions`).
The Rust fields `include`/`exclude` are called `includes`/`excludes`
here because `include` cannot be used as a field name in Lean. -/
structure SyncOptions where
  delete : Bool
  includes : List String
  excludes : List String
  itemize : Bool
  dry_run : Bool
deriving DecidableEq

/-- Change counts for one path-pair comparison (src/syncer.rs
`DiffSummary`, `#[derive(Default)]` gives all-zero counts). -/
structure DiffSummary where
  changed : Nat := 0
  added : Nat := 0
  deleted : Nat := 0
deriving DecidableEq

/-- An external process invocation being built up, modelling
`std::process::Command`: a program name plus the argument list in the
order the arguments were pushed. -/
structure Command where
  program : String
  args : List String
deriving DecidableEq

/-- Model of `Command::arg`: push one argument at the end. -/
def Command.arg (c : Command) (a : String) : Command :=
  { c with args := c.args ++ [a] }

/-- src/util.rs `path_with_trailing_slash`: append a `/` unless the path
already ends with one. -/
def path_with_trailing_slash (p : String) : String :=
  if strEndsWith p "/" then p else p ++ "/"

/-- src/syncer.rs `build_rsync_command`, translated step by step: start
from `rsync`, push `-a`, then the conditional flags, then the include and
exclude patterns in order, then the source path (given a trailing slash
in both match arms of `direction`) and the destination path. -/
def build_rsync_command (source dest : String) (direction : SyncDirection)
    (opts : SyncOptions) : Command :=
  let cmd : Command := { program := "rsync", args := [] }
  let cmd := cmd.arg "-a"
  let cmd := if opts.delete then cmd.arg "--delete" else cmd
  let cmd := if opts.dry_run then cmd.arg "--dry-run" else cmd
  let cmd := if opts.itemize then cmd.arg "--itemize-changes" else cmd
  let cmd := opts.includes.foldl (fun c inc => c.arg ("--include=" ++ inc)) cmd
  let cmd := opts.excludes.foldl (fun c exc => c.arg ("--exclude=" ++ exc)) cmd
  let src := match direction with
    | SyncDirection.origToWorkspace => path_with_trailing_slash source
    | SyncDirection.workspaceToOrig => path_with_trailing_slash source
  let cmd := cmd.arg src
  cmd.arg dest

/-- The per-line classification step of src/syncer.rs `diff_path`: the
branch order is exactly that of the Rust `if`/`else if` chain. -/
def classifyLine (s : DiffSummary) (line : String) : DiffSummary :=
  if strStartsWith line ">f" || strStartsWith line ".f" || strStartsWith line "cD" then
    { s with changed := s.changed + 1 }
  else if strStartsWith line ">f+++++++++" then
    { s with added := s.added + 1 }
  else if strStartsWith line "*deleting" then
    { s with deleted := s.deleted + 1 }
  else
    s

/-- src/syncer.rs `diff_path`: build the dry-run rsync command, run it
(the external process is the oracle `run`, returning either the failure
diagnostic or the stdout lines), and fold the classifier over the output
lines starting from the all-zero summary. -/
def diff_path (source dest : String) (opts : SyncOptions)
    (run : Command → Except String (List String)) : Except String DiffSummary :=
  let cmd := build_rsync_command source dest SyncDirection.workspaceToOrig opts
  match run cmd with
  | Except.error e => Except.error e
  | Except.ok lines => Except.ok (lines.foldl classifyLine {})

/-- One source mapping (src/config.rs `SourceSpec`); `include`/`exclude`
are again renamed `includes`/`excludes`. -/
structure SourceSpec where
  path : String
  includes : List String
  excludes : List String
deriving DecidableEq

/-- src/config.rs `BuildDirType`. -/
inductive BuildDirType where
  | scratch
  | cache
deriving DecidableEq

/-- src/config.rs `BuildDirSpec` (`r#type` is spelled `type_`). -/
structure BuildDirSpec where
  path : String
  type_ : BuildDirType
deriving DecidableEq

/-- src/config.rs `SyncOnExit`. -/
inductive SyncOnExit where
  | ask
  | auto
  | never
deriving DecidableEq

/-- src/config.rs `SyncConfig`. -/
structure SyncConfig where
  on_exit : SyncOnExit
  delete : Bool
deriving DecidableEq

/-- src/config.rs `Config`.  `workspace` is the optional workspace root
template of the `workspace:` section; the `git` section is not modelled
(nothing in the core reads it). -/
structure Config where
  workspace : Option String
  sources : List SourceSpec
  build_dirs : List BuildDirSpec
  sync : SyncConfig
deriving DecidableEq

/-- src/config.rs `ResolvedConfig`. -/
structure ResolvedConfig where
  config_path : String
  orig_root : String
  workspace_root : String
  project_slug : String
  raw : Config
deriving DecidableEq

/-- Model of Rust `Path::join` as used here: an absolute second component
replaces the base, otherwise the two are joined with exactly one `/`
separator. -/
def joinPath (base child : String) : String :=
  if strStartsWith child "/" then child
  else if strEndsWith base "/" then base ++ child
  else base ++ "/" ++ child

/-- Observable effects of the orchestration code.  `removeDir` and
`createDir` are the `std::fs` calls on the staging directory, `mirror` is
one `sync_path` run of the external mirroring process, `logInfo` is a
`tracing::info!` emission, and `prompt` is one operator yes/no question
(with its default). -/
inductive Event where
  | removeDir (path : String)
  | createDir (path : String)
  | mirror (source dest : String) (direction : SyncDirection) (opts : SyncOptions)
  | logInfo (message : String)
  | prompt (message : String) (dflt : Bool)
deriving DecidableEq

/-- Outcome oracle for one external mirror run: `Except.ok` when the
rsync process exits zero, `Except.error` with the diagnostic otherwise. -/
def MirrorOracle : Type :=
  String → String → SyncDirection → SyncOptions → Except String Unit

/-- The options `sync_back` builds for every mapping (src/syncer.rs lines
118–124; `opts2` on line 131 copies them with `dry_run: false`, which
leaves them unchanged). -/
def syncBackOpts (delete : Bool) : SyncOptions :=
  { delete := delete, includes := [], excludes := [], itemize := false, dry_run := false }

/-- The per-mapping loop of src/syncer.rs `sync_back`: for each relative
path, mirror workspace→staging and, if that succeeded, immediately mirror
staging→origin (the Rust passes `SyncDirection::OrigToWorkspace` for that
second call), before moving to the next mapping.  The `?` operator is the
early return on the first error.  Returns the events performed and either
the number of mappings synced or the first error.  The
`create_dir_all(parent)` of each staging parent is modelled as succeeding
and emits no event (it never mirrors, logs or prompts). -/
def syncBackLoop (cfg : ResolvedConfig) (staging : String) (oracle : MirrorOracle) :
    List String → List Event × Except String Nat
  | [] => ([], Except.ok 0)
  | rel :: rest =>
    let ws_path := joinPath cfg.workspace_root rel
    let stage_path := joinPath staging rel
    let opts := syncBackOpts cfg.raw.sync.delete
    let e1 := Event.mirror ws_path stage_path SyncDirection.workspaceToOrig opts
    match oracle ws_path stage_path SyncDirection.workspaceToOrig opts with
    | Except.error e => ([e1], Except.error e)
    | Except.ok _ =>
      let dest := joinPath cfg.orig_root rel
      let e2 := Event.mirror stage_path dest SyncDirection.origToWorkspace opts
      match oracle stage_path dest SyncDirection.origToWorkspace opts with
      | Except.error e => ([e1, e2], Except.error e)
      | Except.ok _ =>
        match syncBackLoop cfg staging oracle rest with
        | (es, Except.ok n) => (e1 :: e2 :: es, Except.ok (n + 1))
        | (es, Except.error e) => (e1 :: e2 :: es, Except.error e)

/-- src/syncer.rs `sync_back`.  `stagingExists` models the
`staging.exists()` check; on success the completion message is logged
unless `noninteractive` and the staging directory is removed; on the
first mirror failure the function returns early with that error (no
cleanup, no log, no further mappings). -/
def sync_back (cfg : ResolvedConfig) (paths : List String) (noninteractive : Bool)
    (stagingExists : Bool) (oracle : MirrorOracle) : List Event × Except String Unit :=
  let staging := joinPath cfg.orig_root ".ramws-staging"
  let pre := (if stagingExists then [Event.removeDir staging] else []) ++
    [Event.createDir staging]
  match syncBackLoop cfg staging oracle paths with
  | (es, Except.ok n) =>
    let post := (if noninteractive then [] else
        [Event.logInfo ("synced " ++ toString n ++ " paths back to disk")]) ++
      [Event.removeDir staging]
    (pre ++ es ++ post, Except.ok ())
  | (es, Except.error e) => (pre ++ es, Except.error e)

/-- src/syncer.rs `refresh_from_orig`: one origin→workspace mirror per
mapping, aborting on the first failure. -/
def refresh_from_orig (cfg : ResolvedConfig) (oracle : MirrorOracle) :
    List String → List Event × Except String Unit
  | [] => ([], Except.ok ())
  | rel :: rest =>
    let src := joinPath cfg.orig_root rel
    let dest := joinPath cfg.workspace_root rel
    let opts := syncBackOpts cfg.raw.sync.delete
    let e1 := Event.mirror src dest SyncDirection.origToWorkspace opts
    match oracle src dest SyncDirection.origToWorkspace opts with
    | Except.error e => ([e1], Except.error e)
    | Except.ok _ =>
      match refresh_from_orig cfg oracle rest with
      | (es, r) => (e1 :: es, r)

/-- src/util.rs `prompt_confirm`.  Modelled from the spec for the part
delegated to the external `dialoguer::Confirm` prompt: the operator's
reply is an optional boolean where `none` (empty input) yields the
supplied default; the terminal interaction itself is outside the
embedding and the call is modelled as not failing. -/
def prompt_confirm (message : String) (dflt : Bool) (answer : Option Bool) :
    List Event × Bool :=
  ([Event.prompt message dflt], answer.getD dflt)

/-- src/syncer.rs `confirm_if_needed`: noninteractive mode short-circuits
to `true` without prompting, otherwise `prompt_confirm` is called with
default `true`. -/
def confirm_if_needed (message : String) (noninteractive : Bool) (answer : Option Bool) :
    List Event × Bool :=
  if noninteractive then ([], true) else prompt_confirm message true answer

/-- The options main.rs `handle_on_exit` builds for the pending-diff
check in the `Ask` branch (lines 239–245). -/
def askDiffOpts (delete : Bool) : SyncOptions :=
  { delete := delete, includes := [], excludes := [], itemize := true, dry_run := true }

/-- The pending-diff loop of main.rs `handle_on_exit`'s `Ask` branch:
walk the source paths, diff each workspace/origin pair, propagate a diff
failure (`?`), and stop at the first mapping with a nonzero count. -/
def pendingLoop (cfg : ResolvedConfig) (run : Command → Except String (List String)) :
    List String → Except String Bool
  | [] => Except.ok false
  | rel :: rest =>
    let ws := joinPath cfg.workspace_root rel
    let orig := joinPath cfg.orig_root rel
    match diff_path ws orig (askDiffOpts cfg.raw.sync.delete) run with
    | Except.error e => Except.error e
    | Except.ok d =>
      if d.added + d.changed + d.deleted > 0 then Except.ok true
      else pendingLoop cfg run rest

/-- main.rs `handle_on_exit`: `Never` does nothing; `Auto` calls
`sync_back` on every configured source path with `noninteractive = true`;
`Ask` first checks for pending diffs, then asks for confirmation via
`confirm_if_needed` and syncs back only on an affirmative answer.  The
dry-run diff executions of the `Ask` branch are captured by the `run`
oracle and emit no events (they mutate nothing). -/
def handle_on_exit (cfg : ResolvedConfig) (noninteractive : Bool)
    (run : Command → Except String (List String)) (answer : Option Bool)
    (stagingExists : Bool) (oracle : MirrorOracle) : List Event × Except String Unit :=
  match cfg.raw.sync.on_exit with
  | SyncOnExit.never => ([], Except.ok ())
  | SyncOnExit.auto =>
    sync_back cfg (cfg.raw.sources.map (fun s => s.path)) true stagingExists oracle
  | SyncOnExit.ask =>
    let paths := cfg.raw.sources.map (fun s => s.path)
    match pendingLoop cfg run paths with
    | Except.error e => ([], Except.error e)
    | Except.ok false => ([], Except.ok ())
    | Except.ok true =>
      match confirm_if_needed "Sync changes back to disk?" noninteractive answer with
      | (es, true) =>
        match sync_back cfg paths noninteractive stagingExists oracle with
        | (es2, r) => (es ++ es2, r)
      | (es, false) => (es, Except.ok ())

/-- src/util.rs `FsStatus` (byte quantities as naturals). -/
structure FsStatus where
  fs_type : String
  total : Nat
  available : Nat
  used : Nat
deriving DecidableEq

/-- src/status.rs `StatusReport`. -/
structure StatusReport where
  workspace_exists : Bool
  workspace_root : String
  fs_type : Option String
  total : Option String
  available : Option String
  used : Option String
  diff_changed : Nat
  diff_added : Nat
  diff_deleted : Nat
  sync_policy : SyncOnExit
  config_path : String
deriving DecidableEq

/-- The loop body of src/status.rs `collect_status`'s diff accumulation:
add one mapping's counts field by field. -/
def addDiff (a d : DiffSummary) : DiffSummary :=
  { changed := a.changed + d.changed, added := a.added + d.added,
    deleted := a.deleted + d.deleted }

/-- src/status.rs `collect_status`.  `exists` models
`cfg.workspace_root.exists()`, `fsRes` the `fs_status` query, and
`diffRes` the `diff_path` call for one source mapping; `fmt` models
`format_bytes` (floating-point string formatting, not embedded).  Both
sub-queries are consumed through `if let Ok`, so a failure leaves the
corresponding fields at their initial value; the function itself always
returns a report (the Rust function returns `Ok` on every path). -/
def collect_status (cfg : ResolvedConfig) (exists_ : Bool)
    (fsRes : Except String FsStatus)
    (diffRes : SourceSpec → Except String DiffSummary)
    (fmt : Nat → String) : StatusReport :=
  let fsFields : Option String × Option String × Option String × Option String :=
    if exists_ then
      match fsRes with
      | Except.ok stat =>
        (some stat.fs_type, some (fmt stat.total), some (fmt stat.available),
          some (fmt stat.used))
      | Except.error _ => (none, none, none, none)
    else (none, none, none, none)
  let diffs : DiffSummary :=
    if exists_ then
      cfg.raw.sources.foldl (fun acc s =>
        match diffRes s with
        | Except.ok d => addDiff acc d
        | Except.error _ => acc) {}
    else {}
  { workspace_exists := exists_
    workspace_root := cfg.workspace_root
    fs_type := fsFields.1
    total := fsFields.2.1
    available := fsFields.2.2.1
    used := fsFields.2.2.2
    diff_changed := diffs.changed
    diff_added := diffs.added
    diff_deleted := diffs.deleted
    sync_policy := cfg.raw.sync.on_exit
    config_path := cfg.config_path }

/-- Model of Rust `str::replace` on character lists for a nonempty
pattern (the two patterns the program uses are nonempty): replace every
leftmost nonoverlapping occurrence of `pat` by `rep`. -/
def replaceAux (pat rep : List Char) : List Char → List Char
  | [] => []
  | c :: rest =>
    if h : pat ≠ [] ∧ listStartsWith (c :: rest) pat = true then
      rep ++ replaceAux pat rep (List.drop pat.length (c :: rest))
    else
      c :: replaceAux pat rep rest
termination_by l => l.length
decreasing_by
  · have hp : 0 < pat.length := List.length_pos.mpr h.1
    simp only [List.length_drop, List.length_cons]
    omega
  · simp only [List.length_cons]
    omega

/-- Model of Rust `str::replace` on strings. -/
def strReplace (s pat rep : String) : String :=
  String.mk (replaceAux pat.data rep.data s.data)

/-- src/util.rs `expand_placeholders`: substitute `${PROJECT}` by the
slug, then substitute `${USER}` by the `USER` environment variable only
when it is set (`user` models `env::var("USER").ok()`). -/
def expand_placeholders (template : String) (project_slug : String)
    (user : Option String) : String :=
  let value := strReplace template "${PROJECT}" project_slug
  match user with
  | some u => strReplace value "${USER}" u
  | none => value

/-- The workspace-root resolution inside src/config.rs
`Config::load_from_file` (lines 145–151): take the configured
`workspace.root` template or, when absent, the default
`"/dev/shm/ramws-${USER}/{project_slug}"` (the slug is interpolated by
`format!` before placeholder expansion), then expand placeholders. -/
def resolve_workspace_root (root : Option String) (project_slug : String)
    (user : Option String) : String :=
  let ws_root_str := root.getD ("/dev/shm/ramws-${USER}/" ++ project_slug)
  expand_placeholders ws_root_str project_slug user

/-! Helper lemmas about the embedded primitives. -/

lemma strData_append (a b : String) : (a ++ b).data = a.data ++ b.data := rfl

lemma strExt {a b : String} (h : a.data = b.data) : a = b := by
  cases a
  cases b
  exact congrArg String.mk h

lemma str_append_assoc (a b c : String) : (a ++ b) ++ c = a ++ (b ++ c) := by
  apply strExt
  simp [strData_append]

lemma listStartsWith_nil (l : List Char) : listStartsWith l [] = true := by
  cases l <;> rfl

lemma listStartsWith_append_self (xs ys : List Char) :
    listStartsWith (xs ++ ys) xs = true := by
  induction xs with
  | nil => exact listStartsWith_nil ys
  | cons c cs ih => simp [listStartsWith, ih]

lemma Command.arg_program (c : Command) (a : String) :
    (c.arg a).program = c.program := rfl

lemma Command.arg_args (c : Command) (a : String) :
    (c.arg a).args = c.args ++ [a] := rfl

lemma foldl_arg_args {α : Type} (f : α → String) (l : List α) (cmd : Command) :
    (l.foldl (fun c x => c.arg (f x)) cmd).args = cmd.args ++ l.map f := by
  induction l generalizing cmd with
  | nil => simp
  | cons x xs ih =>
    rw [List.foldl_cons, ih]
    simp [Command.arg]

lemma foldl_arg_program {α : Type} (f : α → String) (l : List α) (cmd : Command) :
    (l.foldl (fun c x => c.arg (f x)) cmd).program = cmd.program := by
  induction l generalizing cmd with
  | nil => rfl
  | cons x xs ih =>
    rw [List.foldl_cons, ih]
    rfl

lemma argIf_args (b : Bool) (c : Command) (a : String) :
    (if b then c.arg a else c).args = c.args ++ (if b then [a] else []) := by
  cases b <;> simp [Command.arg]

lemma argIf_program (b : Bool) (c : Command) (a : String) :
    (if b then c.arg a else c).program = c.program := by
  cases b <;> rfl

/-- C1: the claim expects `DiffEngine.diff` to report `added=1, changed=1,
deleted=1` on the three itemization lines, with the all-flags-set
"brand new file" line counted as added.  The code tests `>f` before
`>f+++++++++`, so the brand-new line is counted as `changed` and the
`added` branch is unreachable: on the claimed input the classifier yields
`changed=2, added=0, deleted=1`. -/
theorem diff_path_counts_brand_new_as_changed :
    diff_path "/ws/src" "/orig/src"
        { delete := true, includes := [], excludes := [], itemize := true, dry_run := true }
        (fun _ => Except.ok
          [">f+++++++++ new.txt", ">fcstpog foo.txt", "*deleting old.txt"])
      = Except.ok { changed := 2, added := 0, deleted := 1 } ∧
    classifyLine {} ">f+++++++++ new.txt" = { changed := 1, added := 0, deleted := 0 } := by
  exact ⟨rfl, rfl⟩

/-- C5: the argument list handed to the external mirroring process is the
archive-mode flag, then the delete flag iff requested, the dry-run flag
iff requested, the itemize flag iff requested, one include flag per
include pattern then one exclude flag per exclude pattern each in
caller-supplied order, and finally the source path with a trailing path
separator followed by the destination path. -/
theorem build_rsync_command_contract (source dest : String) (direction : SyncDirection)
    (opts : SyncOptions) :
    (build_rsync_command source dest direction opts).program = "rsync" ∧
    (build_rsync_command source dest direction opts).args =
      ["-a"] ++ (if opts.delete then ["--delete"] else [])
        ++ (if opts.dry_run then ["--dry-run"] else [])
        ++ (if opts.itemize then ["--itemize-changes"] else [])
        ++ opts.includes.map (fun p => "--include=" ++ p)
        ++ opts.excludes.map (fun p => "--exclude=" ++ p)
        ++ [path_with_trailing_slash source, dest] := by
  constructor
  · cases direction <;>
      simp only [build_rsync_command, Command.arg_program, foldl_arg_program, argIf_program]
  · cases direction <;>
      · simp only [build_rsync_command, Command.arg_args, foldl_arg_args, argIf_args]
        simp [List.append_assoc]

/-- C7: `confirm_if_needed` in noninteractive mode returns `true` without
performing any prompt; in interactive mode it performs exactly one yes/no
prompt whose default is affirmative, returns `true` on empty input
(`none`) and otherwise returns the operator's answer. -/
theorem confirm_if_needed_contract (message : String) (answer : Option Bool) (b : Bool) :
    confirm_if_needed message true answer = ([], true) ∧
    confirm_if_needed message false none = ([Event.prompt message true], true) ∧
    confirm_if_needed message false (some b) = ([Event.prompt message true], b) := by
  exact ⟨rfl, rfl, rfl⟩

/-! Lemmas about the `sync_back` loop trace. -/

lemma syncBackLoop_mirror_events (cfg : ResolvedConfig) (staging : String)
    (oracle : MirrorOracle) (paths : List String) :
    ∀ ev ∈ (syncBackLoop cfg staging oracle paths).1,
      ∃ s d dir o, ev = Event.mirror s d dir o := by
  induction paths with
  | nil =>
    intro ev h
    simp [syncBackLoop] at h
  | cons rel rest ih =>
    intro ev h
    cases h1 : oracle (joinPath cfg.workspace_root rel) (joinPath staging rel)
        SyncDirection.workspaceToOrig (syncBackOpts cfg.raw.sync.delete) with
    | error e =>
      simp only [syncBackLoop, h1] at h
      simp at h
      exact ⟨_, _, _, _, h⟩
    | ok u =>
      cases h2 : oracle (joinPath staging rel) (joinPath cfg.orig_root rel)
          SyncDirection.origToWorkspace (syncBackOpts cfg.raw.sync.delete) with
      | error e =>
        simp only [syncBackLoop, h1, h2] at h
        simp at h
        rcases h with h | h
        · exact ⟨_, _, _, _, h⟩
        · exact ⟨_, _, _, _, h⟩
      | ok v =>
        cases h3 : syncBackLoop cfg staging oracle rest with
        | mk es r =>
          cases r with
          | ok n =>
            simp only [syncBackLoop, h1, h2, h3] at h
            simp at h
            rcases h with h | h | h
            · exact ⟨_, _, _, _, h⟩
            · exact ⟨_, _, _, _, h⟩
            · exact ih ev (by rw [h3]; exact h)
          | error e =>
            simp only [syncBackLoop, h1, h2, h3] at h
            simp at h
            rcases h with h | h | h
            · exact ⟨_, _, _, _, h⟩
            · exact ⟨_, _, _, _, h⟩
            · exact ih ev (by rw [h3]; exact h)

lemma syncBackLoop_append_of_ok (cfg : ResolvedConfig) (staging : String)
    (oracle : MirrorOracle) (xs ys : List String) (n : Nat)
    (hx : (syncBackLoop cfg staging oracle xs).2 = Except.ok n) :
    (syncBackLoop cfg staging oracle (xs ++ ys)).1
        = (syncBackLoop cfg staging oracle xs).1 ++ (syncBackLoop cfg staging oracle ys).1 ∧
    ∀ e, (syncBackLoop cfg staging oracle ys).2 = Except.error e →
      (syncBackLoop cfg staging oracle (xs ++ ys)).2 = Except.error e := by
  induction xs generalizing n with
  | nil =>
    refine ⟨by simp [syncBackLoop], ?_⟩
    intro e he
    simpa [syncBackLoop] using he
  | cons rel rest ih =>
    cases h1 : oracle (joinPath cfg.workspace_root rel) (joinPath staging rel)
        SyncDirection.workspaceToOrig (syncBackOpts cfg.raw.sync.delete) with
    | error e =>
      exfalso
      simp [syncBackLoop, h1] at hx
    | ok u =>
      cases h2 : oracle (joinPath staging rel) (joinPath cfg.orig_root rel)
          SyncDirection.origToWorkspace (syncBackOpts cfg.raw.sync.delete) with
      | error e =>
        exfalso
        simp [syncBackLoop, h1, h2] at hx
      | ok v =>
        cases h3 : syncBackLoop cfg staging oracle rest with
        | mk es r =>
          cases r with
          | error e =>
            exfalso
            simp [syncBackLoop, h1, h2, h3] at hx
          | ok m =>
            have hrest : (syncBackLoop cfg staging oracle rest).2 = Except.ok m := by
              rw [h3]
            obtain ⟨ihl, ihr⟩ := ih m hrest
            constructor
            · cases h4 : syncBackLoop cfg staging oracle (rest ++ ys) with
              | mk es2 r2 =>
                have hes2 : es2 = es ++ (syncBackLoop cfg staging oracle ys).1 := by
                  have := ihl
                  rw [h3, h4] at this
                  simpa using this
                cases r2 with
                | ok k =>
                  simp [syncBackLoop, h1, h2, h3, h4, List.cons_append, hes2]
                | error e =>
                  simp [syncBackLoop, h1, h2, h3, h4, List.cons_append, hes2]
            · intro e he
              have := ihr e he
              cases h4 : syncBackLoop cfg staging oracle (rest ++ ys) with
              | mk es2 r2 =>
                rw [h4] at this
                simp at this
                simp [syncBackLoop, h1, h2, h4, this]

lemma syncBackLoop_cons_of_single_error (cfg : ResolvedConfig) (staging : String)
    (oracle : MirrorOracle) (rel : String) (post : List String) (e : String)
    (h : (syncBackLoop cfg staging oracle [rel]).2 = Except.error e) :
    syncBackLoop cfg staging oracle (rel :: post)
      = ((syncBackLoop cfg staging oracle [rel]).1, Except.error e) := by
  cases h1 : oracle (joinPath cfg.workspace_root rel) (joinPath staging rel)
      SyncDirection.workspaceToOrig (syncBackOpts cfg.raw.sync.delete) with
  | error e' =>
    have he : e' = e := by
      simpa [syncBackLoop, h1] using h
    subst he
    simp [syncBackLoop, h1]
  | ok u =>
    cases h2 : oracle (joinPath staging rel) (joinPath cfg.orig_root rel)
        SyncDirection.origToWorkspace (syncBackOpts cfg.raw.sync.delete) with
    | error e' =>
      have he : e' = e := by
        simpa [syncBackLoop, h1, h2] using h
      subst he
      simp [syncBackLoop, h1, h2]
    | ok v =>
      exfalso
      simp [syncBackLoop, h1, h2] at h

/-- C4: in one syncback invocation, a mirror failure on some mapping
(`hrel`: the failing mapping's own mirrors, run alone, end in `e`) after
mappings `pre` completed (`hpre`) makes `sync_back` stop right there: the
resulting trace is the staging setup, the events of the completed
mappings, and the failing mapping's events — nothing for `post`, no
rollback events for `pre`'s already-applied origin mirrors — and the
error is surfaced as the result. -/
theorem sync_back_failure_aborts (cfg : ResolvedConfig) (stEx ni : Bool)
    (oracle : MirrorOracle) (pre post : List String) (rel : String) (n : Nat) (e : String)
    (hpre : (syncBackLoop cfg (joinPath cfg.orig_root ".ramws-staging") oracle pre).2
      = Except.ok n)
    (hrel : (syncBackLoop cfg (joinPath cfg.orig_root ".ramws-staging") oracle [rel]).2
      = Except.error e) :
    sync_back cfg (pre ++ rel :: post) ni stEx oracle =
      ((if stEx then [Event.removeDir (joinPath cfg.orig_root ".ramws-staging")] else []) ++
        [Event.createDir (joinPath cfg.orig_root ".ramws-staging")] ++
        (syncBackLoop cfg (joinPath cfg.orig_root ".ramws-staging") oracle pre).1 ++
        (syncBackLoop cfg (joinPath cfg.orig_root ".ramws-staging") oracle [rel]).1,
       Except.error e) := by
  have hsingle := syncBackLoop_cons_of_single_error cfg
    (joinPath cfg.orig_root ".ramws-staging") oracle rel post e hrel
  obtain ⟨hl, hr⟩ := syncBackLoop_append_of_ok cfg
    (joinPath cfg.orig_root ".ramws-staging") oracle pre (rel :: post) n hpre
  have herr : (syncBackLoop cfg (joinPath cfg.orig_root ".ramws-staging") oracle
      (pre ++ rel :: post)).2 = Except.error e :=
    hr e (by rw [hsingle])
  cases h4 : syncBackLoop cfg (joinPath cfg.orig_root ".ramws-staging") oracle
      (pre ++ rel :: post) with
  | mk es r =>
    have hes : es = (syncBackLoop cfg (joinPath cfg.orig_root ".ramws-staging") oracle pre).1
        ++ (syncBackLoop cfg (joinPath cfg.orig_root ".ramws-staging") oracle [rel]).1 := by
      have := hl
      rw [h4, hsingle] at this
      simpa using this
    have hre : r = Except.error e := by
      rw [h4] at herr
      simpa using herr
    subst hre
    simp [sync_back, h4, hes, List.append_assoc]

/-- A resolved configuration assembled from its parts (used to state
theorems about a fixed sync-on-exit policy and in concrete runs). -/
def cfgWithPolicy (cp orr wsr slug : String) (w : Option String)
    (sources : List SourceSpec) (bds : List BuildDirSpec) (pol : SyncOnExit)
    (delete : Bool) : ResolvedConfig :=
  { config_path := cp, orig_root := orr, workspace_root := wsr, project_slug := slug,
    raw := { workspace := w, sources := sources, build_dirs := bds,
             sync := { on_exit := pol, delete := delete } } }

/-- A small concrete configuration for witnesses and counterexamples:
origin tree at `/orig`, workspace at `/ws`, delete policy on. -/
def sampleCfg (sources : List SourceSpec) (pol : SyncOnExit) : ResolvedConfig :=
  cfgWithPolicy "/orig/.ramws.yml" "/orig" "/ws" "proj-0000000" none sources [] pol true

/-- Witness for `sync_back_failure_aborts`: three mappings, the second
one's workspace→staging mirror fails, so the trace stops after mapping
`a`'s two mirrors and mapping `b`'s failing mirror and the error is
returned. -/
theorem sync_back_failure_aborts_witness :
    sync_back (sampleCfg [] SyncOnExit.ask) (["a"] ++ "b" :: ["c"]) true false
        (fun s _ _ _ => if s = "/ws/b" then Except.error "boom" else Except.ok ()) =
      ((if false then
          [Event.removeDir (joinPath (sampleCfg [] SyncOnExit.ask).orig_root ".ramws-staging")]
        else []) ++
        [Event.createDir (joinPath (sampleCfg [] SyncOnExit.ask).orig_root ".ramws-staging")] ++
        (syncBackLoop (sampleCfg [] SyncOnExit.ask)
          (joinPath (sampleCfg [] SyncOnExit.ask).orig_root ".ramws-staging")
          (fun s _ _ _ => if s = "/ws/b" then Except.error "boom" else Except.ok ())
          ["a"]).1 ++
        (syncBackLoop (sampleCfg [] SyncOnExit.ask)
          (joinPath (sampleCfg [] SyncOnExit.ask).orig_root ".ramws-staging")
          (fun s _ _ _ => if s = "/ws/b" then Except.error "boom" else Except.ok ())
          ["b"]).1,
       Except.error "boom") :=
  sync_back_failure_aborts (sampleCfg [] SyncOnExit.ask) false true
    (fun s _ _ _ => if s = "/ws/b" then Except.error "boom" else Except.ok ())
    ["a"] ["c"] "b" 1 "boom" (by rfl) (by rfl)

/-- Recognizer for `tracing::info!` events in a trace. -/
def isLogEvent : Event → Bool
  | Event.logInfo _ => true
  | _ => false

lemma not_prompt_mem_of_mirrors {es : List Event}
    (h : ∀ ev ∈ es, ∃ s d dir o, ev = Event.mirror s d dir o) (m : String) (d : Bool) :
    Event.prompt m d ∉ es := by
  intro hm
  obtain ⟨s, d', dir, o, he⟩ := h _ hm
  exact Event.noConfusion he

lemma not_log_mem_of_mirrors {es : List Event}
    (h : ∀ ev ∈ es, ∃ s d dir o, ev = Event.mirror s d dir o) (msg : String) :
    Event.logInfo msg ∉ es := by
  intro hm
  obtain ⟨s, d', dir, o, he⟩ := h _ hm
  exact Event.noConfusion he

lemma filter_notLog_of_mirrors {es : List Event}
    (h : ∀ ev ∈ es, ∃ s d dir o, ev = Event.mirror s d dir o) :
    es.filter (fun e => !isLogEvent e) = es := by
  apply List.filter_eq_self.mpr
  intro a ha
  obtain ⟨s, d, dir, o, he⟩ := h a ha
  subst he
  rfl

lemma prompt_not_in_sync_back (cfg : ResolvedConfig) (paths : List String)
    (ni stEx : Bool) (oracle : MirrorOracle) (m : String) (d : Bool) :
    Event.prompt m d ∉ (sync_back cfg paths ni stEx oracle).1 := by
  have hmir := syncBackLoop_mirror_events cfg (joinPath cfg.orig_root ".ramws-staging")
    oracle paths
  cases hloop : syncBackLoop cfg (joinPath cfg.orig_root ".ramws-staging") oracle paths with
  | mk es r =>
    rw [hloop] at hmir
    cases r with
    | ok n =>
      cases stEx <;> cases ni <;>
        simp [sync_back, hloop] <;>
        exact not_prompt_mem_of_mirrors hmir m d
    | error e =>
      cases stEx <;>
        simp [sync_back, hloop] <;>
        exact not_prompt_mem_of_mirrors hmir m d

/-- C10: `sync_back` itself never prompts for confirmation, whatever the
`noninteractive` flag or the pending state; the flag changes neither the
non-log events (the mirrors and staging operations) nor the result, and
it controls only the completion log message: no log is ever emitted with
the flag set, and a successful run with the flag unset emits one. -/
theorem sync_back_noninteractive_only_suppresses_log (cfg : ResolvedConfig)
    (paths : List String) (stEx : Bool) (oracle : MirrorOracle) :
    (∀ ni m d, Event.prompt m d ∉ (sync_back cfg paths ni stEx oracle).1) ∧
    ((sync_back cfg paths false stEx oracle).1.filter (fun e => !isLogEvent e)
        = (sync_back cfg paths true stEx oracle).1.filter (fun e => !isLogEvent e)) ∧
    ((sync_back cfg paths false stEx oracle).2 = (sync_back cfg paths true stEx oracle).2) ∧
    (∀ msg, Event.logInfo msg ∉ (sync_back cfg paths true stEx oracle).1) ∧
    ((sync_back cfg paths false stEx oracle).2 = Except.ok () →
      ∃ msg, Event.logInfo msg ∈ (sync_back cfg paths false stEx oracle).1) := by
  have hmir := syncBackLoop_mirror_events cfg (joinPath cfg.orig_root ".ramws-staging")
    oracle paths
  refine ⟨fun ni m d => prompt_not_in_sync_back cfg paths ni stEx oracle m d, ?_⟩
  cases hloop : syncBackLoop cfg (joinPath cfg.orig_root ".ramws-staging") oracle paths with
  | mk es r =>
    rw [hloop] at hmir
    cases r with
    | ok n =>
      refine ⟨?_, ?_, ?_, ?_⟩
      · cases stEx <;>
          simp [sync_back, hloop, List.filter_append, filter_notLog_of_mirrors hmir,
            isLogEvent]
      · simp [sync_back, hloop]
      · intro msg
        cases stEx <;>
          simp [sync_back, hloop] <;>
          exact not_log_mem_of_mirrors hmir msg
      · intro _
        refine ⟨"synced " ++ toString n ++ " paths back to disk", ?_⟩
        cases stEx <;> simp [sync_back, hloop]
    | error e =>
      refine ⟨?_, ?_, ?_, ?_⟩
      · simp [sync_back, hloop]
      · simp [sync_back, hloop]
      · intro msg
        cases stEx <;>
          simp [sync_back, hloop] <;>
          exact not_log_mem_of_mirrors hmir msg
      · intro hok
        exfalso
        simp [sync_back, hloop] at hok

/-- Witness for `sync_back_noninteractive_only_suppresses_log`: an empty
interactive run succeeds, and its trace indeed holds a completion log
message. -/
theorem sync_back_noninteractive_only_suppresses_log_witness :
    ∃ msg, Event.logInfo msg ∈
      (sync_back (sampleCfg [] SyncOnExit.ask) [] false false
        (fun _ _ _ _ => Except.ok ())).1 :=
  (sync_back_noninteractive_only_suppresses_log (sampleCfg [] SyncOnExit.ask) [] false
    (fun _ _ _ _ => Except.ok ())).2.2.2.2 (by rfl)

/-- C6: with policy `Auto`, `handle_on_exit` runs `sync_back` over every
configured source mapping in noninteractive mode — independent of the
`noninteractive` argument, of the diff oracle (hence also with zero
pending diffs), and without any confirmation prompt; with policy `Never`
it performs nothing and succeeds, whatever the pending diffs. -/
theorem handle_on_exit_auto_and_never (cp orr wsr slug : String) (w : Option String)
    (sources : List SourceSpec) (bds : List BuildDirSpec) (delete ni : Bool)
    (run : Command → Except String (List String)) (answer : Option Bool)
    (stEx : Bool) (oracle : MirrorOracle) :
    handle_on_exit (cfgWithPolicy cp orr wsr slug w sources bds SyncOnExit.auto delete)
        ni run answer stEx oracle
      = sync_back (cfgWithPolicy cp orr wsr slug w sources bds SyncOnExit.auto delete)
          (sources.map (fun s => s.path)) true stEx oracle ∧
    (∀ m d, Event.prompt m d ∉
      (handle_on_exit (cfgWithPolicy cp orr wsr slug w sources bds SyncOnExit.auto delete)
        ni run answer stEx oracle).1) ∧
    handle_on_exit (cfgWithPolicy cp orr wsr slug w sources bds SyncOnExit.never delete)
        ni run answer stEx oracle = ([], Except.ok ()) := by
  have hauto : handle_on_exit
      (cfgWithPolicy cp orr wsr slug w sources bds SyncOnExit.auto delete)
      ni run answer stEx oracle
    = sync_back (cfgWithPolicy cp orr wsr slug w sources bds SyncOnExit.auto delete)
        (sources.map (fun s => s.path)) true stEx oracle := rfl
  refine ⟨hauto, ?_, rfl⟩
  intro m d
  rw [hauto]
  exact prompt_not_in_sync_back _ _ _ _ _ m d

/-- C2: no path-containment check exists on any mirror path:
`ensure_within_root` is defined in src/util.rs but never called, so a
mapping that escapes both the workspace root and the project root is
mirrored as-is — here `sync_back` runs the workspace→staging mirror on
the escaping path `../outside` and returns success instead of failing
with `PathEscape` before mirroring. -/
theorem sync_back_runs_mirror_on_escaping_path :
    (sync_back (sampleCfg [{ path := "../outside", includes := [], excludes := [] }]
        SyncOnExit.ask) ["../outside"] true false (fun _ _ _ _ => Except.ok ())).2
      = Except.ok () ∧
    Event.mirror "/ws/../outside" "/orig/.ramws-staging/../outside"
        SyncDirection.workspaceToOrig (syncBackOpts true)
      ∈ (sync_back (sampleCfg [{ path := "../outside", includes := [], excludes := [] }]
          SyncOnExit.ask) ["../outside"] true false (fun _ _ _ _ => Except.ok ())).1 := by
  constructor
  · rfl
  · decide

/-! Classification of trace events relative to the staging directory,
used to state the two-phase property of claim C3. -/

/-- A mirror event whose source lies inside the staging directory, i.e.
a staging→origin publication mirror (phase 3 in the spec's numbering). -/
def mirrorOutOfStaging (staging : String) : Event → Bool
  | Event.mirror source _ _ _ => strStartsWith source (staging ++ "/")
  | _ => false

/-- A mirror event whose destination lies inside the staging directory,
i.e. a workspace→staging staging mirror (phase 2 in the spec's
numbering). -/
def mirrorIntoStaging (staging : String) : Event → Bool
  | Event.mirror _ dest _ _ => strStartsWith dest (staging ++ "/")
  | _ => false

/-- Recognizer for mirror events. -/
def isMirrorEvent : Event → Bool
  | Event.mirror _ _ _ _ => true
  | _ => false

/-- The ordering property claim C3 asserts of a syncback trace: every
workspace→staging mirror happens before any staging→origin mirror (the
staging phase completes for all mappings first). -/
def stagingPhaseCompletesFirst (staging : String) : List Event → Bool
  | [] => true
  | e :: rest =>
    ((!mirrorOutOfStaging staging e) || rest.all fun e2 => !mirrorIntoStaging staging e2)
      && stagingPhaseCompletesFirst staging rest

/-- Crash-safety scan: up to (and not including) the first
staging→origin mirror of the trace, every mirror writes only inside the
staging directory — so stopping anywhere before that first
staging→origin mirror leaves the origin tree (outside staging)
unchanged. -/
def confinedToStagingUntilFirstOriginMirror (staging : String) : List Event → Bool
  | [] => true
  | e :: rest =>
    if mirrorOutOfStaging staging e then true
    else (!isMirrorEvent e || mirrorIntoStaging staging e)
      && confinedToStagingUntilFirstOriginMirror staging rest

/-- C3 counterexample: with two mappings `a`, `b` and all mirrors
succeeding, the trace of `sync_back` publishes mapping `a` to the origin
before mapping `b` is staged, so the staging phase does not complete for
all mappings before the first staging→origin mirror. -/
theorem sync_back_interleaves_staging_and_origin_mirrors :
    stagingPhaseCompletesFirst
      (joinPath (sampleCfg [] SyncOnExit.ask).orig_root ".ramws-staging")
      (sync_back (sampleCfg [] SyncOnExit.ask) ["a", "b"] true false
        (fun _ _ _ _ => Except.ok ())).1 = false := by
  decide

lemma strStartsWith_append (a b : String) : strStartsWith (a ++ b) a = true := by
  simp only [strStartsWith, strData_append]
  exact listStartsWith_append_self a.data b.data

lemma strEndsWith_ramws_staging (x : String) :
    strEndsWith (x ++ ".ramws-staging") "/" = false := by
  have hrev : ".ramws-staging".data.reverse =
      'g' :: ('n' :: 'i' :: 'g' :: 'a' :: 't' :: 's' :: '-' :: 's' :: 'w' :: 'm' ::
        'a' :: 'r' :: '.' :: []) := rfl
  have hg : ('g' == '/') = false := rfl
  simp [strEndsWith, strData_append, List.reverse_append, hrev, listStartsWith, hg]

lemma joinPath_staging_not_slash (orr : String) :
    strEndsWith (joinPath orr ".ramws-staging") "/" = false := by
  have h1 : strStartsWith ".ramws-staging" "/" = false := rfl
  by_cases h2 : strEndsWith orr "/" = true
  · simpa [joinPath, h1, h2] using strEndsWith_ramws_staging orr
  · have h2' : strEndsWith orr "/" = false := by
      cases h : strEndsWith orr "/"
      · rfl
      · exact absurd h h2
    simpa [joinPath, h1, h2'] using strEndsWith_ramws_staging (orr ++ "/")

lemma confined_syncBackLoop (cfg : ResolvedConfig) (staging : String)
    (oracle : MirrorOracle) (paths : List String) (rest : List Event)
    (hs : strEndsWith staging "/" = false)
    (h : ∀ rel ∈ paths, strStartsWith rel "/" = false)
    (hrest : confinedToStagingUntilFirstOriginMirror staging rest = true) :
    confinedToStagingUntilFirstOriginMirror staging
      ((syncBackLoop cfg staging oracle paths).1 ++ rest) = true := by
  cases paths with
  | nil => simpa [syncBackLoop] using hrest
  | cons rel tl =>
    have hrel : strStartsWith rel "/" = false := h rel (by simp)
    have hjoin : joinPath staging rel = staging ++ "/" ++ rel := by
      simp [joinPath, hrel, hs]
    have hin : strStartsWith (joinPath staging rel) (staging ++ "/") = true := by
      rw [hjoin]
      exact strStartsWith_append (staging ++ "/") rel
    cases h1 : oracle (joinPath cfg.workspace_root rel) (joinPath staging rel)
        SyncDirection.workspaceToOrig (syncBackOpts cfg.raw.sync.delete) with
    | error e =>
      simp only [syncBackLoop, h1, List.cons_append, List.nil_append]
      by_cases hout : mirrorOutOfStaging staging
          (Event.mirror (joinPath cfg.workspace_root rel) (joinPath staging rel)
            SyncDirection.workspaceToOrig (syncBackOpts cfg.raw.sync.delete)) = true
      · simp [confinedToStagingUntilFirstOriginMirror, hout]
      · simp [confinedToStagingUntilFirstOriginMirror, hout, isMirrorEvent,
          mirrorIntoStaging, hin, hrest]
    | ok u =>
      have hout2 : mirrorOutOfStaging staging
          (Event.mirror (joinPath staging rel) (joinPath cfg.orig_root rel)
            SyncDirection.origToWorkspace (syncBackOpts cfg.raw.sync.delete)) = true := by
        simpa [mirrorOutOfStaging] using hin
      cases h2 : oracle (joinPath staging rel) (joinPath cfg.orig_root rel)
          SyncDirection.origToWorkspace (syncBackOpts cfg.raw.sync.delete) with
      | error e =>
        simp only [syncBackLoop, h1, h2, List.cons_append, List.nil_append]
        by_cases hout : mirrorOutOfStaging staging
            (Event.mirror (joinPath cfg.workspace_root rel) (joinPath staging rel)
              SyncDirection.workspaceToOrig (syncBackOpts cfg.raw.sync.delete)) = true
        · simp [confinedToStagingUntilFirstOriginMirror, hout]
        · simp [confinedToStagingUntilFirstOriginMirror, hout, hout2, isMirrorEvent,
            mirrorIntoStaging, hin]
      | ok v =>
        cases h3 : syncBackLoop cfg staging oracle tl with
        | mk es r =>
          cases r with
          | ok n =>
            simp only [syncBackLoop, h1, h2, h3, List.cons_append]
            by_cases hout : mirrorOutOfStaging staging
                (Event.mirror (joinPath cfg.workspace_root rel) (joinPath staging rel)
                  SyncDirection.workspaceToOrig (syncBackOpts cfg.raw.sync.delete)) = true
            · simp [confinedToStagingUntilFirstOriginMirror, hout]
            · simp [confinedToStagingUntilFirstOriginMirror, hout, hout2, isMirrorEvent,
                mirrorIntoStaging, hin]
          | error e =>
            simp only [syncBackLoop, h1, h2, h3, List.cons_append]
            by_cases hout : mirrorOutOfStaging staging
                (Event.mirror (joinPath cfg.workspace_root rel) (joinPath staging rel)
                  SyncDirection.workspaceToOrig (syncBackOpts cfg.raw.sync.delete)) = true
            · simp [confinedToStagingUntilFirstOriginMirror, hout]
            · simp [confinedToStagingUntilFirstOriginMirror, hout, hout2, isMirrorEvent,
                mirrorIntoStaging, hin]

/-- C3 amended: syncback stages and publishes per mapping, so only the
prefix of the trace before the first staging→origin mirror is guaranteed
to write nothing outside the staging directory; termination anywhere in
that prefix leaves the origin tree unchanged (with the mappings staged so
far in the staging directory), while after it the origin may already
hold earlier mappings even though later mappings are not yet staged. -/
theorem sync_back_confined_to_staging_before_first_origin_mirror
    (cfg : ResolvedConfig) (paths : List String) (ni stEx : Bool)
    (oracle : MirrorOracle)
    (h : ∀ rel ∈ paths, strStartsWith rel "/" = false) :
    confinedToStagingUntilFirstOriginMirror (joinPath cfg.orig_root ".ramws-staging")
      (sync_back cfg paths ni stEx oracle).1 = true := by
  have hs := joinPath_staging_not_slash cfg.orig_root
  cases hloop : syncBackLoop cfg (joinPath cfg.orig_root ".ramws-staging") oracle paths with
  | mk es r =>
    cases r with
    | ok n =>
      have hpost : ∀ post : List Event,
          confinedToStagingUntilFirstOriginMirror
            (joinPath cfg.orig_root ".ramws-staging")
            ((if ni then [] else
              [Event.logInfo ("synced " ++ toString n ++ " paths back to disk")]) ++
              [Event.removeDir (joinPath cfg.orig_root ".ramws-staging")]) = true := by
        intro _
        cases ni <;>
          simp [confinedToStagingUntilFirstOriginMirror, mirrorOutOfStaging,
            isMirrorEvent]
      have hconf := confined_syncBackLoop cfg (joinPath cfg.orig_root ".ramws-staging")
        oracle paths
        ((if ni then [] else
          [Event.logInfo ("synced " ++ toString n ++ " paths back to disk")]) ++
          [Event.removeDir (joinPath cfg.orig_root ".ramws-staging")])
        hs h (hpost [])
      rw [hloop] at hconf
      cases stEx <;> cases ni <;>
        simpa [sync_back, hloop, confinedToStagingUntilFirstOriginMirror,
          mirrorOutOfStaging, isMirrorEvent, List.append_assoc] using hconf
    | error e =>
      have hconf := confined_syncBackLoop cfg (joinPath cfg.orig_root ".ramws-staging")
        oracle paths [] hs h (by rfl)
      rw [hloop] at hconf
      rw [List.append_nil] at hconf
      cases stEx <;>
        simpa [sync_back, hloop, confinedToStagingUntilFirstOriginMirror,
          mirrorOutOfStaging, isMirrorEvent] using hconf

/-- Witness for
`sync_back_confined_to_staging_before_first_origin_mirror`: the concrete
two-mapping run of the counterexample satisfies the scan. -/
theorem sync_back_confined_to_staging_witness :
    confinedToStagingUntilFirstOriginMirror
      (joinPath (sampleCfg [] SyncOnExit.ask).orig_root ".ramws-staging")
      (sync_back (sampleCfg [] SyncOnExit.ask) ["a", "b"] true false
        (fun _ _ _ _ => Except.ok ())).1 = true :=
  sync_back_confined_to_staging_before_first_origin_mirror
    (sampleCfg [] SyncOnExit.ask) ["a", "b"] true false
    (fun _ _ _ _ => Except.ok ()) (by decide)

/-! Lemmas for the status report. -/

/-- Total of a list of diff summaries (used to state which mappings make
it into the aggregate). -/
def sumDiffs (l : List DiffSummary) : DiffSummary :=
  l.foldl addDiff {}

lemma addDiff_zero (d : DiffSummary) : addDiff {} d = d := by
  cases d
  simp [addDiff]

lemma addDiff_zero_right (d : DiffSummary) : addDiff d {} = d := by
  cases d
  simp [addDiff]

lemma addDiff_assoc (a b c : DiffSummary) :
    addDiff (addDiff a b) c = addDiff a (addDiff b c) := by
  simp [addDiff, Nat.add_assoc]

lemma foldl_addDiff_shift (l : List DiffSummary) (acc : DiffSummary) :
    l.foldl addDiff acc = addDiff acc (sumDiffs l) := by
  induction l generalizing acc with
  | nil => simp [sumDiffs, addDiff_zero_right]
  | cons d tl ih =>
    have hsum : sumDiffs (d :: tl) = addDiff d (sumDiffs tl) := by
      show (d :: tl).foldl addDiff {} = _
      rw [List.foldl_cons, ih (addDiff {} d), addDiff_zero]
    rw [List.foldl_cons, ih (addDiff acc d), hsum, addDiff_assoc]

lemma collect_status_fold_eq (diffRes : SourceSpec → Except String DiffSummary)
    (l : List SourceSpec) (acc : DiffSummary) :
    l.foldl (fun acc s =>
        match diffRes s with
        | Except.ok d => addDiff acc d
        | Except.error _ => acc) acc
      = addDiff acc (sumDiffs (l.filterMap fun s => (diffRes s).toOption)) := by
  induction l generalizing acc with
  | nil => simp [sumDiffs, addDiff_zero_right]
  | cons s tl ih =>
    cases hd : diffRes s with
    | ok d =>
      rw [List.foldl_cons]
      have hfm : ((s :: tl).filterMap fun s => (diffRes s).toOption)
          = d :: tl.filterMap fun s => (diffRes s).toOption := by
        simp [List.filterMap_cons, hd, Except.toOption]
      rw [hfm]
      have hsum : sumDiffs (d :: tl.filterMap fun s => (diffRes s).toOption)
          = addDiff d (sumDiffs (tl.filterMap fun s => (diffRes s).toOption)) := by
        show List.foldl addDiff {} _ = _
        rw [List.foldl_cons, foldl_addDiff_shift, addDiff_zero]
      simp only [hd]
      rw [ih (addDiff acc d), hsum, addDiff_assoc]
    | error e =>
      rw [List.foldl_cons]
      have hfm : ((s :: tl).filterMap fun s => (diffRes s).toOption)
          = tl.filterMap fun s => (diffRes s).toOption := by
        simp [List.filterMap_cons, hd, Except.toOption]
      simp only [hd]
      rw [hfm, ih acc]

/-- C8: the status snapshot is best-effort.  With the workspace root
absent it reports `exists = false`, all capacity fields unset and zero
diff counts; with the root present, a capacity-query failure unsets only
the capacity fields and leaves the diff aggregation untouched; and the
aggregate diff counts are exactly the sum over the mappings whose diff
succeeded — failing mappings are excluded instead of aborting the
report (which is total: it always returns a snapshot). -/
theorem collect_status_best_effort (cfg : ResolvedConfig)
    (fsRes : Except String FsStatus)
    (diffRes : SourceSpec → Except String DiffSummary) (fmt : Nat → String) :
    (collect_status cfg false fsRes diffRes fmt =
      { workspace_exists := false, workspace_root := cfg.workspace_root,
        fs_type := none, total := none, available := none, used := none,
        diff_changed := 0, diff_added := 0, diff_deleted := 0,
        sync_policy := cfg.raw.sync.on_exit, config_path := cfg.config_path }) ∧
    (∀ e : String,
      (collect_status cfg true (Except.error e) diffRes fmt).fs_type = none ∧
      (collect_status cfg true (Except.error e) diffRes fmt).total = none ∧
      (collect_status cfg true (Except.error e) diffRes fmt).available = none ∧
      (collect_status cfg true (Except.error e) diffRes fmt).used = none ∧
      (collect_status cfg true (Except.error e) diffRes fmt).diff_changed
        = (collect_status cfg true fsRes diffRes fmt).diff_changed ∧
      (collect_status cfg true (Except.error e) diffRes fmt).diff_added
        = (collect_status cfg true fsRes diffRes fmt).diff_added ∧
      (collect_status cfg true (Except.error e) diffRes fmt).diff_deleted
        = (collect_status cfg true fsRes diffRes fmt).diff_deleted) ∧
    ((collect_status cfg true fsRes diffRes fmt).diff_changed
        = (sumDiffs (cfg.raw.sources.filterMap fun s => (diffRes s).toOption)).changed ∧
      (collect_status cfg true fsRes diffRes fmt).diff_added
        = (sumDiffs (cfg.raw.sources.filterMap fun s => (diffRes s).toOption)).added ∧
      (collect_status cfg true fsRes diffRes fmt).diff_deleted
        = (sumDiffs (cfg.raw.sources.filterMap fun s => (diffRes s).toOption)).deleted) := by
  have hfold : (cfg.raw.sources.foldl (fun acc s =>
      match diffRes s with
      | Except.ok d => addDiff acc d
      | Except.error _ => acc) {})
      = sumDiffs (cfg.raw.sources.filterMap fun s => (diffRes s).toOption) := by
    rw [collect_status_fold_eq, addDiff_zero]
  refine ⟨rfl, fun e => ⟨rfl, rfl, rfl, rfl, rfl, rfl, rfl⟩, ?_, ?_, ?_⟩ <;>
    simp [collect_status, hfold]

/-! Lemmas about placeholder replacement, for the workspace-root
resolution. -/

lemma replaceAux_cons_noMatch (pat rep : List Char) (c : Char) (l : List Char)
    (h : listStartsWith (c :: l) pat = false) :
    replaceAux pat rep (c :: l) = c :: replaceAux pat rep l := by
  rw [replaceAux]
  simp [h]

lemma replaceAux_append_noDollar (ps rep : List Char) (xs l : List Char)
    (hx : ∀ c ∈ xs, (c == '$') = false) :
    replaceAux ('$' :: ps) rep (xs ++ l) = xs ++ replaceAux ('$' :: ps) rep l := by
  induction xs with
  | nil => simp
  | cons c tl ih =>
    have hc : (c == '$') = false := hx c (by simp)
    have hstart : listStartsWith (c :: (tl ++ l)) ('$' :: ps) = false := by
      simp [listStartsWith, hc]
    rw [List.cons_append, replaceAux_cons_noMatch _ _ _ _ hstart,
      ih (fun c hcm => hx c (by simp [hcm]))]
    rfl

/-- C9: with no workspace root configured and the `USER` environment
variable unset, the resolved workspace root keeps the literal text
`${USER}` from the default template: only the `${PROJECT}` placeholder is
replaced (by the slug already interpolated by `format!`), and `${USER}`
is substituted only when the variable exists. -/
theorem resolve_workspace_root_keeps_user_placeholder (slug : String) :
    ∃ rest : String, resolve_workspace_root none slug none
      = ("/dev/shm/ramws-" ++ "${USER}" ++ "/") ++ rest := by
  refine ⟨String.mk (replaceAux "${PROJECT}".data slug.data slug.data), ?_⟩
  have h0 : resolve_workspace_root none slug none
      = String.mk (replaceAux "${PROJECT}".data slug.data
          ("/dev/shm/ramws-${USER}/".data ++ slug.data)) := rfl
  have hsplit : ("/dev/shm/ramws-${USER}/".data ++ slug.data)
      = "/dev/shm/ramws-".data ++ ('$' :: ("{USER}/".data ++ slug.data)) := by
    simp [List.append_assoc]
  have hpat : "${PROJECT}".data = '$' :: "{PROJECT}".data := rfl
  have h1 : replaceAux "${PROJECT}".data slug.data
        ("/dev/shm/ramws-".data ++ ('$' :: ("{USER}/".data ++ slug.data)))
      = "/dev/shm/ramws-".data ++ replaceAux "${PROJECT}".data slug.data
          ('$' :: ("{USER}/".data ++ slug.data)) := by
    rw [hpat]
    exact replaceAux_append_noDollar _ _ _ _ (by decide)
  have hU : ('U' == 'P') = false := rfl
  have hnm : listStartsWith ('$' :: ("{USER}/".data ++ slug.data)) "${PROJECT}".data
      = false := by
    show listStartsWith ('$' :: '{' :: 'U' :: ("SER\x7d/".data ++ slug.data))
      ('$' :: '{' :: 'P' :: "ROJECT\x7d".data) = false
    simp [listStartsWith, hU]
  have h2 : replaceAux "${PROJECT}".data slug.data
        ('$' :: ("{USER}/".data ++ slug.data))
      = '$' :: replaceAux "${PROJECT}".data slug.data ("{USER}/".data ++ slug.data) :=
    replaceAux_cons_noMatch _ _ _ _ hnm
  have h3 : replaceAux "${PROJECT}".data slug.data ("{USER}/".data ++ slug.data)
      = "{USER}/".data ++ replaceAux "${PROJECT}".data slug.data slug.data := by
    rw [hpat]
    exact replaceAux_append_noDollar _ _ _ _ (by decide)
  rw [h0, hsplit, h1, h2, h3]
  apply strExt
  simp [strData_append, List.append_assoc]

end Ramws
